import Mathlib

/-!
Verification of the tashkent-voxel-vision core geometry and ledger code.

The development shallowly embeds the JavaScript sources:
* `packages/data/scripts/lib/mercator.mjs` — WGS84 ⇄ Web-Mercator projection,
* `packages/data/scripts/lib/tile-grid.mjs` — grid partitioner and bbox scaling,
* `packages/data/scripts/lib/artifacts.mjs` — artifact ledger upsert and persistence,
* `packages/data/scripts/lib/init-data-release.mjs` — manifest initialisation,
* the iso-whitebox renderer's `scaleBboxAroundCenter`.

JS numbers are modelled as real numbers; a non-finite JS number (`NaN`, `±Infinity`,
for which `Number.isFinite` is `false`) is modelled as `none` in an `Option ℝ`
argument where the source explicitly tests finiteness.  Pure rational arithmetic
(the bbox scaling operations) is modelled over `ℚ` so that concrete runs are
decidable.  Fallible code returns `Except`.
-/

open Real

/-- An axis-aligned bounding box `[west, south, east, north]`, polymorphic over the
coordinate type (ℝ for projection work, ℚ for the exactly-rational scaling code). -/
structure Bbox (α : Type) where
  west : α
  south : α
  east : α
  north : α
  deriving Repr, DecidableEq

/-! ### mercator.mjs -/

/-- Embeds `const R = 6378137` — the WGS84 sphere radius used by Web-Mercator. -/
def Rmerc : ℝ := 6378137

/-- Embeds `const MAX_LAT = 85.05112878`. -/
def MAX_LAT : ℝ := 85.05112878

/-- Embeds `clampLatDeg` (mercator.mjs line 4): `Math.max(-MAX_LAT, Math.min(MAX_LAT, lat))`. -/
noncomputable def clampLatDeg (lat : ℝ) : ℝ := max (-MAX_LAT) (min MAX_LAT lat)

/-- The x-coordinate computed by `lonLatToWebMercator`: `R * lonRad` with
`lonRad = lonDeg * π / 180`. -/
noncomputable def mercX (lonDeg : ℝ) : ℝ := Rmerc * (lonDeg * π / 180)

/-- The y-coordinate computed by `lonLatToWebMercator`:
`R * Math.log(Math.tan(Math.PI / 4 + latRad / 2))` with `latRad` the clamped
latitude in radians. -/
noncomputable def mercY (latDeg : ℝ) : ℝ :=
  Rmerc * Real.log (Real.tan (π / 4 + clampLatDeg latDeg * π / 180 / 2))

/-- Embeds `lonLatToWebMercator` on finite inputs: the pair `{x, y}`. -/
noncomputable def lonLatToWebMercator (lonDeg latDeg : ℝ) : ℝ × ℝ :=
  (mercX lonDeg, mercY latDeg)

/-- Embeds `webMercatorToLonLat` on finite inputs: `lonRad = x / R`,
`latRad = 2 * Math.atan(Math.exp(y / R)) - Math.PI / 2`, both converted to degrees. -/
noncomputable def webMercatorToLonLat (x y : ℝ) : ℝ × ℝ :=
  (x / Rmerc * 180 / π, (2 * Real.arctan (Real.exp (y / Rmerc)) - π / 2) * 180 / π)

/-- Embeds `lonLatToWebMercator` with its finiteness guards: `none` models a JS number with
`Number.isFinite` false (the function throws `Invalid longitude` / `Invalid latitude`
before computing anything else). -/
noncomputable def jsLonLatToWebMercator (lonDeg latDeg : Option ℝ) : Except String (ℝ × ℝ) :=
  match lonDeg with
  | none => .error "Invalid longitude"
  | some lon =>
    match latDeg with
    | none => .error "Invalid latitude"
    | some lat => .ok (lonLatToWebMercator lon lat)

/-- Embeds `webMercatorToLonLat` with its finiteness guards on the `x` and `y` inputs. -/
noncomputable def jsWebMercatorToLonLat (x y : Option ℝ) : Except String (ℝ × ℝ) :=
  match x with
  | none => .error "Invalid x"
  | some xv =>
    match y with
    | none => .error "Invalid y"
    | some yv => .ok (webMercatorToLonLat xv yv)

/-- Embeds `wgs84BboxToWebMercatorBbox`: west/east projected at the equator, south/north at
longitude 0 — `[pW.x, pS.y, pE.x, pN.y]`. -/
noncomputable def wgs84BboxToWebMercatorBbox (b : Bbox ℝ) : Bbox ℝ :=
  { west := mercX b.west, south := mercY b.south, east := mercX b.east, north := mercY b.north }

/-- Embeds `webMercatorBboxToWgs84Bbox`: SW and NE corners converted pointwise. -/
noncomputable def webMercatorBboxToWgs84Bbox (b : Bbox ℝ) : Bbox ℝ :=
  { west := (webMercatorToLonLat b.west b.south).1
    south := (webMercatorToLonLat b.west b.south).2
    east := (webMercatorToLonLat b.east b.north).1
    north := (webMercatorToLonLat b.east b.north).2 }

/-! ### tile-grid.mjs : splitBboxGridWgs84 -/

/-- One tile produced by `splitBboxGridWgs84` (`z` fixed at 0; `bbox` fields store
`[w,s,e,n]`, the `_3857` fields in Web-Mercator meters, `_overlap` the context box). -/
structure Tile where
  z : ℕ
  x : ℕ
  y : ℕ
  bbox : Bbox ℝ
  bbox_3857 : Bbox ℝ
  bbox_overlap : Bbox ℝ
  bbox_overlap_3857 : Bbox ℝ

/-- The tile pushed for column `x`, row `y` (tile-grid.mjs lines 41–58):
`xMin = x0 + dx*x`, `xMax = x0 + dx*(x+1)`, `yMax = y1 - dy*y`, `yMin = y1 - dy*(y+1)`;
the overlap (context) box expands each side by `ox`/`oy`. -/
noncomputable def mkTile (x0 y1 dx dy ox oy : ℝ) (x y : ℕ) : Tile :=
  let xMin := x0 + dx * x
  let xMax := x0 + dx * (x + 1)
  let yMax := y1 - dy * y
  let yMin := y1 - dy * (y + 1)
  let bbox3857 : Bbox ℝ := ⟨xMin, yMin, xMax, yMax⟩
  let bbox3857Overlap : Bbox ℝ := ⟨xMin - ox, yMin - oy, xMax + ox, yMax + oy⟩
  { z := 0, x := x, y := y
    bbox := webMercatorBboxToWgs84Bbox bbox3857
    bbox_3857 := bbox3857
    bbox_overlap := webMercatorBboxToWgs84Bbox bbox3857Overlap
    bbox_overlap_3857 := bbox3857Overlap }

/-- The double loop of `splitBboxGridWgs84` (outer `y`, inner `x`, both `0..grid-1`). -/
noncomputable def gridTiles (x0 y1 dx dy ox oy : ℝ) (grid : ℕ) : List Tile :=
  (List.range grid).flatMap fun y => (List.range grid).map fun x => mkTile x0 y1 dx dy ox oy x y

/-- The error cases of `splitBboxGridWgs84`. -/
inductive GridError where
  | invalidGrid
  | invalidOverlap
  | degenerateBbox
  deriving Repr, DecidableEq

/-- Embeds `splitBboxGridWgs84({bbox, grid, overlap})` (tile-grid.mjs lines 15–63).
`grid` must be an integer in 1..64 (checked first), `overlap` a finite number with
`0 ≤ overlap < 0.49` (checked second); the bbox is projected to Web-Mercator and its
projected width/height must be positive (checked third); then the `grid × grid`
tiles are produced with `dx = w/grid`, `dy = h/grid`, `ox = dx*overlap`, `oy = dy*overlap`. -/
noncomputable def splitBboxGridWgs84 (bbox : Bbox ℝ) (grid : ℤ) (overlap : ℝ) :
    Except GridError (List Tile) :=
  if 1 ≤ grid ∧ grid ≤ 64 then
    if 0 ≤ overlap ∧ overlap < 0.49 then
      let pb := wgs84BboxToWebMercatorBbox bbox
      let w := pb.east - pb.west
      let h := pb.north - pb.south
      if 0 < w ∧ 0 < h then
        let dx := w / (grid : ℝ)
        let dy := h / (grid : ℝ)
        let ox := dx * overlap
        let oy := dy * overlap
        .ok (gridTiles pb.west pb.north dx dy ox oy grid.toNat)
      else .error .degenerateBbox
    else .error .invalidOverlap
  else .error .invalidGrid

/-! ### artifacts.mjs : the artifact ledger -/

/-- One entry of `manifest.artifacts`: `{path, sha256, size}` (artifacts.mjs
`buildArtifact`).  A JS-falsy `path` (the `a?.path` guard) is modelled by the empty
string. -/
structure Artifact where
  path : String
  sha256 : String
  size : ℤ
  deriving Repr, DecidableEq

/-- The manifest document as parsed from `manifest.json`.  Top-level fields other
than `artifacts` are never touched by the ledger-upsert code; they are carried as
opaque strings. -/
structure Manifest where
  run_id : String
  created_at : String
  aoi : String
  sources : String
  notes : String
  artifacts : List Artifact
  deriving Repr, DecidableEq

/-- The `indexByPath` map of `upsertArtifacts` (artifacts.mjs lines 42–46): each
entry with a truthy `path` sets `map[path] := i` in index order, so the map holds
the **last** index at which a non-empty `path` occurs. -/
def indexByPath : List Artifact → String → Option ℕ
  | [], _ => none
  | a :: rest, p =>
    match (indexByPath rest p).map (· + 1) with
    | some j => some j
    | none => if a.path ≠ "" ∧ a.path = p then some 0 else none

/-- One iteration of the `for (const a of artifacts)` loop of `upsertArtifacts`
(artifacts.mjs lines 48–57): falsy paths are skipped; a known path replaces the
entry at its index in place; an unknown path is appended. -/
def upsertOne (arts : List Artifact) (a : Artifact) : List Artifact :=
  if a.path = "" then arts
  else
    match indexByPath arts a.path with
    | none => arts ++ [a]
    | some i => arts.set i a

/-- Embeds `upsertArtifacts(manifest, artifacts)` restricted to its effect on the
`artifacts` array (the only field it mutates). -/
def upsertArtifacts (arts : List Artifact) (news : List Artifact) : List Artifact :=
  news.foldl upsertOne arts

/-- Embeds `upsertArtifacts` acting on the whole manifest object. -/
def upsertManifest (m : Manifest) (news : List Artifact) : Manifest :=
  { m with artifacts := upsertArtifacts m.artifacts news }

/-- The error cases of `addFilesToManifest`. -/
inductive LedgerError where
  | missingManifest
  | validationFailed
  deriving Repr, DecidableEq

/-- Embeds `addFilesToManifest({manifestPath, runRoot, absPaths})` (artifacts.mjs lines
60–79) as a state-passing function on the on-disk manifest (`none` = no file).
The freshly built artifact list is a parameter (hashing the files is I/O); the
schema validator is a parameter.  The returned pair is (call result, new disk
state): the code throws before `fs.writeFile` whenever validation fails, so the
disk keeps its previous content in every error case. -/
def addFilesToManifest (validate : Manifest → Bool) (disk : Option Manifest)
    (arts : List Artifact) : Except LedgerError Manifest × Option Manifest :=
  match disk with
  | none => (.error .missingManifest, none)
  | some m =>
    let m' := upsertManifest m arts
    if validate m' then (.ok m', some m') else (.error .validationFailed, some m)

/-! ### init-data-release.mjs and the manifest schema

The JSON schema file `data-release-manifest.schema.json` is referenced by
`manifest-schema.mjs` but is not part of the available sources; its key discipline
is therefore modelled from the spec.  The document `initDataRelease` builds and
persists (init-data-release.mjs lines 58–74) is in the sources, and the repo's own
test asserts that `validateManifest` accepts it. -/

/-- The top-level keys, in insertion order, of the manifest object literal built by
`initDataRelease` (init-data-release.mjs lines 58–74). -/
def initManifestTopLevelKeys : List String :=
  ["run_id", "created_at", "aoi", "sources", "notes", "artifacts"]

/-- Modelled from the spec: the manifest schema file
`data-release-manifest.schema.json` is missing from the sources; per the spec's
words the required (and only allowed) top-level keys are
`run_id, created_at, aoi, sources, artifacts`. -/
def specAllowedTopLevelKeys : List String :=
  ["run_id", "created_at", "aoi", "sources", "artifacts"]

/-- Modelled from the spec: top-level schema validation — every required key is
present and no key outside the allowed list occurs ("no additional top-level
properties"). -/
def specValidateTopLevel (keys : List String) : Bool :=
  specAllowedTopLevelKeys.all (fun k => decide (k ∈ keys)) &&
    keys.all (fun k => decide (k ∈ specAllowedTopLevelKeys))

/-- The allowed top-level key list amended with `notes`, the key `initDataRelease`
actually writes (and whose validity the repo's test asserts). -/
def amendedAllowedTopLevelKeys : List String :=
  ["run_id", "created_at", "aoi", "sources", "notes", "artifacts"]

/-- Top-level schema validation with the amended allowed-key list: the five
spec-required keys must be present and every key must be among the six allowed. -/
def amendedValidateTopLevel (keys : List String) : Bool :=
  specAllowedTopLevelKeys.all (fun k => decide (k ∈ keys)) &&
    keys.all (fun k => decide (k ∈ amendedAllowedTopLevelKeys))

/-! ### bbox scaling : tile-grid.mjs `scaleBboxWgs84` and
iso-whitebox `scaleBboxAroundCenter` (exactly rational arithmetic, over ℚ) -/

/-- Embeds `scaleBboxWgs84(bbox, scale)` (tile-grid.mjs lines 3–13): rejects
`scale ≤ 0 || scale > 1`, then shrinks symmetrically about the bbox center. -/
def scaleBboxWgs84 (b : Bbox ℚ) (scale : ℚ) : Except String (Bbox ℚ) :=
  if scale ≤ 0 ∨ 1 < scale then .error "Invalid scale"
  else
    let cx := (b.west + b.east) / 2
    let cy := (b.south + b.north) / 2
    let halfW := (b.east - b.west) * scale / 2
    let halfH := (b.north - b.south) * scale / 2
    .ok ⟨cx - halfW, cy - halfH, cx + halfW, cy + halfH⟩

/-- Embeds `clamp(v, lo, hi)` from the iso-whitebox script: `Math.min(hi, Math.max(lo, v))`. -/
def clampQ (v lo hi : ℚ) : ℚ := min hi (max lo v)

/-- Embeds `scaleBboxAroundCenter({bbox, scale, centerLon, centerLat})` (iso-whitebox
script lines 56–101).  Only `scale ≤ 0` (or non-finite) is rejected; `|scale-1| <
1e-12` returns a copy of the input; otherwise the scaled box is shifted back inside
the original on each axis, clamped, and required to be non-degenerate.  `none` for
a center component models `null`/non-finite (the code falls back to the midpoint). -/
def scaleBboxAroundCenter (b : Bbox ℚ) (scale : ℚ) (centerLon centerLat : Option ℚ) :
    Except String (Bbox ℚ) :=
  if scale ≤ 0 then .error "Invalid --bbox_scale"
  else if |scale - 1| < 1 / 1000000000000 then .ok b
  else
    let fullW := b.east - b.west
    let fullH := b.north - b.south
    let outW := fullW * scale
    let outH := fullH * scale
    let cx := clampQ (centerLon.getD ((b.west + b.east) / 2)) b.west b.east
    let cy := clampQ (centerLat.getD ((b.south + b.north) / 2)) b.south b.north
    let mLon0 := cx - outW / 2
    let xLon0 := cx + outW / 2
    let mLon1 := if mLon0 < b.west then b.west else mLon0
    let xLon1 := if mLon0 < b.west then xLon0 + (b.west - mLon0) else xLon0
    let xLon2 := if xLon1 > b.east then b.east else xLon1
    let mLon2 := if xLon1 > b.east then mLon1 - (xLon1 - b.east) else mLon1
    let mLat0 := cy - outH / 2
    let xLat0 := cy + outH / 2
    let mLat1 := if mLat0 < b.south then b.south else mLat0
    let xLat1 := if mLat0 < b.south then xLat0 + (b.south - mLat0) else xLat0
    let xLat2 := if xLat1 > b.north then b.north else xLat1
    let mLat2 := if xLat1 > b.north then mLat1 - (xLat1 - b.north) else mLat1
    let outMinLon := clampQ mLon2 b.west b.east
    let outMaxLon := clampQ xLon2 b.west b.east
    let outMinLat := clampQ mLat2 b.south b.north
    let outMaxLat := clampQ xLat2 b.south b.north
    if outMinLon < outMaxLon ∧ outMinLat < outMaxLat then
      .ok ⟨outMinLon, outMinLat, outMaxLon, outMaxLat⟩
    else .error "Computed bbox after scaling is invalid"


/-! ## Helper lemmas: ledger upsert -/

/-- The paths of the ledger entries that participate in `indexByPath` (truthy path). -/
def pathsOf (arts : List Artifact) : List String :=
  (arts.filter fun a => decide (a.path ≠ "")).map (·.path)

/-- The spec's "unique by `path`" invariant on a ledger's artifact array. -/
def uniqueByPath (arts : List Artifact) : Prop := (pathsOf arts).Nodup

theorem pathsOf_nil : pathsOf [] = [] := rfl

theorem pathsOf_cons (a : Artifact) (rest : List Artifact) :
    pathsOf (a :: rest) = if a.path ≠ "" then a.path :: pathsOf rest else pathsOf rest := by
  by_cases h : a.path = "" <;> simp [pathsOf, List.filter_cons, h]

theorem indexByPath_spec {arts : List Artifact} {p : String} {i : ℕ}
    (h : indexByPath arts p = some i) :
    ∃ hlt : i < arts.length, (arts.get ⟨i, hlt⟩).path = p ∧ p ≠ "" := by
  induction arts generalizing i with
  | nil => simp [indexByPath] at h
  | cons a rest ih =>
    rw [indexByPath] at h
    cases hr : indexByPath rest p with
    | some j =>
      rw [hr] at h
      simp only [Option.map_some'] at h
      obtain ⟨hlt, hpath, hp⟩ := ih hr
      cases h
      exact ⟨by simpa using Nat.succ_lt_succ hlt, by simpa using hpath, hp⟩
    | none =>
      rw [hr] at h
      simp only [Option.map_none'] at h
      split at h
      · rename_i hcond
        cases h
        exact ⟨Nat.succ_pos _, hcond.2, hcond.2 ▸ hcond.1⟩
      · exact absurd h (by simp)

theorem indexByPath_set_of_path_eq {arts : List Artifact} {i : ℕ} {a : Artifact}
    (hlt : i < arts.length) (hpath : (arts.get ⟨i, hlt⟩).path = a.path) (q : String) :
    indexByPath (arts.set i a) q = indexByPath arts q := by
  induction arts generalizing i with
  | nil => simp at hlt
  | cons b rest ih =>
    cases i with
    | zero =>
      simp only [List.get] at hpath
      simp only [List.set]
      rw [indexByPath, indexByPath, hpath]
    | succ j =>
      simp only [List.get] at hpath
      simp only [List.set]
      rw [indexByPath, indexByPath, ih (Nat.lt_of_succ_lt_succ hlt) hpath]

theorem indexByPath_append_singleton {a : Artifact} (hp : a.path ≠ "") (arts : List Artifact) :
    indexByPath (arts ++ [a]) a.path = some arts.length := by
  induction arts with
  | nil => simp [indexByPath, hp]
  | cons b rest ih => rw [List.cons_append, indexByPath, ih]; rfl

theorem set_append_singleton (arts : List Artifact) (a a' : Artifact) :
    (arts ++ [a]).set arts.length a' = arts ++ [a'] := by
  induction arts with
  | nil => rfl
  | cons b rest ih => simp [List.set, ih]

theorem pathsOf_set_of_path_eq {arts : List Artifact} {i : ℕ} {a : Artifact}
    (hlt : i < arts.length) (hpath : (arts.get ⟨i, hlt⟩).path = a.path) :
    pathsOf (arts.set i a) = pathsOf arts := by
  induction arts generalizing i with
  | nil => simp at hlt
  | cons b rest ih =>
    cases i with
    | zero =>
      simp only [List.get] at hpath
      simp only [List.set]
      rw [pathsOf_cons, pathsOf_cons, hpath]
    | succ j =>
      simp only [List.get] at hpath
      simp only [List.set]
      rw [pathsOf_cons, pathsOf_cons, ih (Nat.lt_of_succ_lt_succ hlt) hpath]

theorem mem_pathsOf_of_indexByPath_some {arts : List Artifact} {p : String} {i : ℕ}
    (h : indexByPath arts p = some i) : p ∈ pathsOf arts := by
  induction arts generalizing i with
  | nil => simp [indexByPath] at h
  | cons a rest ih =>
    rw [indexByPath] at h
    cases hr : indexByPath rest p with
    | some j =>
      have hmem := ih hr
      rw [pathsOf_cons]
      split <;> simp [hmem]
    | none =>
      rw [hr] at h
      simp only [Option.map_none'] at h
      split at h
      · rename_i hcond
        rw [pathsOf_cons, if_pos hcond.1, hcond.2]
        exact List.mem_cons_self _ _
      · exact absurd h (by simp)

theorem indexByPath_eq_none_iff {arts : List Artifact} {p : String} :
    indexByPath arts p = none ↔ p ∉ pathsOf arts := by
  induction arts with
  | nil => simp [indexByPath, pathsOf_nil]
  | cons a rest ih =>
    rw [indexByPath, pathsOf_cons]
    cases hr : indexByPath rest p with
    | some j =>
      have hmem : p ∈ pathsOf rest := mem_pathsOf_of_indexByPath_some hr
      simp only [Option.map_some']
      constructor
      · intro h; exact absurd h (by simp)
      · intro h
        exfalso
        by_cases hane : a.path = "" <;> simp [hane, hmem] at h
    | none =>
      have hnm : p ∉ pathsOf rest := ih.1 hr
      simp only [Option.map_none']
      by_cases hane : a.path = ""
      · simp [hane, hnm]
      · by_cases hap : a.path = p
        · have hpne : p ≠ "" := hap ▸ hane
          simp [hane, hap, hpne]
        · simp [hane, hap, hnm, Ne.symm hap]

theorem upsertArtifacts_singleton (arts : List Artifact) (a : Artifact) :
    upsertArtifacts arts [a] = upsertOne arts a := rfl

theorem upsertOne_idem (arts : List Artifact) (a : Artifact) :
    upsertOne (upsertOne arts a) a = upsertOne arts a := by
  by_cases hp : a.path = ""
  · simp [upsertOne, hp]
  · cases h : indexByPath arts a.path with
    | none =>
      have h2 : indexByPath (arts ++ [a]) a.path = some arts.length :=
        indexByPath_append_singleton hp arts
      simp [upsertOne, hp, h, h2, set_append_singleton]
    | some i =>
      obtain ⟨hlt, hpath, -⟩ := indexByPath_spec h
      have h2 : indexByPath (arts.set i a) a.path = some i := by
        rw [indexByPath_set_of_path_eq hlt hpath]; exact h
      simp [upsertOne, hp, h, h2, List.set_set]

/-- Claim C5. Ledger upsert is idempotent: for every manifest and artifact entry,
upserting the entry twice leaves the manifest (and hence its serialized ledger
document) identical to upserting it once. -/
theorem upsert_ledger_idempotent (m : Manifest) (a : Artifact) :
    upsertManifest (upsertManifest m [a]) [a] = upsertManifest m [a] := by
  simp [upsertManifest, upsertArtifacts_singleton, upsertOne_idem]

/-- Claim C6. Artifact entries are unique by path and `upsertArtifacts` preserves the
invariant: an existing path is replaced in place (at its index, array length
unchanged), a new path is appended (length grows by one), and a `Nodup` path list
stays `Nodup`. -/
theorem upsert_unique_by_path (arts : List Artifact) (a : Artifact) (hp : a.path ≠ "") :
    (∀ i, indexByPath arts a.path = some i →
        upsertArtifacts arts [a] = arts.set i a ∧
        (upsertArtifacts arts [a]).length = arts.length) ∧
    (indexByPath arts a.path = none →
        upsertArtifacts arts [a] = arts ++ [a] ∧
        (upsertArtifacts arts [a]).length = arts.length + 1) ∧
    (uniqueByPath arts → uniqueByPath (upsertArtifacts arts [a])) := by
  refine ⟨fun i hi => ?_, fun hn => ?_, fun hu => ?_⟩
  · rw [upsertArtifacts_singleton]
    simp [upsertOne, hp, hi]
  · rw [upsertArtifacts_singleton]
    simp [upsertOne, hp, hn]
  · rw [upsertArtifacts_singleton]
    unfold upsertOne
    rw [if_neg hp]
    cases h : indexByPath arts a.path with
    | none =>
      have hnm : a.path ∉ pathsOf arts := indexByPath_eq_none_iff.1 h
      unfold uniqueByPath at hu ⊢
      have : pathsOf (arts ++ [a]) = pathsOf arts ++ [a.path] := by
        simp [pathsOf, List.filter_append, hp]
      rw [this]
      simp [List.nodup_append, hu, hnm]
    | some i =>
      obtain ⟨hlt, hpath, -⟩ := indexByPath_spec h
      unfold uniqueByPath at hu ⊢
      rw [pathsOf_set_of_path_eq hlt hpath]
      exact hu

/-- Witness for C6 — the spec's own scenario: a ledger holding
`{path:"vector/buildings.parquet", sha256:"aa..", size:100}`; upserting
`{path:"vector/buildings.parquet", sha256:"bb..", size:120}` replaces the entry in
place and the array length stays 1. -/
theorem upsert_unique_by_path_witness :
    upsertArtifacts [⟨"vector/buildings.parquet", "aa..", 100⟩]
        [⟨"vector/buildings.parquet", "bb..", 120⟩] =
      [⟨"vector/buildings.parquet", "bb..", 120⟩] ∧
    (upsertArtifacts [⟨"vector/buildings.parquet", "aa..", 100⟩]
        [⟨"vector/buildings.parquet", "bb..", 120⟩]).length = 1 := by
  have h := (upsert_unique_by_path [⟨"vector/buildings.parquet", "aa..", 100⟩]
      ⟨"vector/buildings.parquet", "bb..", 120⟩ (by decide)).1 0 (by decide)
  exact ⟨h.1, h.2⟩

/-- Claim C4. If the updated manifest fails schema validation, `addFilesToManifest`
returns the validation error and the on-disk manifest is unchanged (the write
happens strictly after validation). -/
theorem addFilesToManifest_invalid_leaves_disk_unchanged (validate : Manifest → Bool)
    (m : Manifest) (arts : List Artifact)
    (h : validate (upsertManifest m arts) = false) :
    addFilesToManifest validate (some m) arts = (.error .validationFailed, some m) := by
  simp [addFilesToManifest, h]

/-- Witness for C4: a validator that rejects everything leaves a concrete manifest
on disk untouched and reports `validationFailed`. -/
theorem addFilesToManifest_invalid_leaves_disk_unchanged_witness :
    addFilesToManifest (fun _ => false)
        (some ⟨"r1", "2026-02-07T00:00:00.000Z", "tashkent", "osm", "n", []⟩)
        [⟨"vector/buildings.parquet", "aa..", 100⟩] =
      (.error .validationFailed,
        some ⟨"r1", "2026-02-07T00:00:00.000Z", "tashkent", "osm", "n", []⟩) :=
  addFilesToManifest_invalid_leaves_disk_unchanged (fun _ => false)
    ⟨"r1", "2026-02-07T00:00:00.000Z", "tashkent", "osm", "n", []⟩
    [⟨"vector/buildings.parquet", "aa..", 100⟩] rfl

/-! ## Helper lemmas: projection -/

theorem MAX_LAT_pos : (0 : ℝ) < MAX_LAT := by norm_num [MAX_LAT]

theorem clampLatDeg_mem (lat : ℝ) :
    -MAX_LAT ≤ clampLatDeg lat ∧ clampLatDeg lat ≤ MAX_LAT := by
  unfold clampLatDeg
  constructor
  · exact le_max_left _ _
  · exact max_le (by linarith [MAX_LAT_pos]) (min_le_left _ _)

theorem clampLatDeg_eq_self {lat : ℝ} (h1 : -MAX_LAT ≤ lat) (h2 : lat ≤ MAX_LAT) :
    clampLatDeg lat = lat := by
  unfold clampLatDeg
  rw [min_eq_right h2, max_eq_right h1]

theorem clampLatDeg_idem (lat : ℝ) : clampLatDeg (clampLatDeg lat) = clampLatDeg lat :=
  clampLatDeg_eq_self (clampLatDeg_mem lat).1 (clampLatDeg_mem lat).2

theorem Rmerc_pos : (0 : ℝ) < Rmerc := by norm_num [Rmerc]

/-- The tangent argument `π/4 + latRad/2` lies in `(0, π/2)` for latitudes within
the clamp range. -/
theorem theta_mem {lat : ℝ} (h1 : -MAX_LAT ≤ lat) (h2 : lat ≤ MAX_LAT) :
    0 < π / 4 + lat * π / 180 / 2 ∧ π / 4 + lat * π / 180 / 2 < π / 2 := by
  have hπ := Real.pi_pos
  rw [show MAX_LAT = 85.05112878 from rfl] at h1 h2
  constructor
  · nlinarith [mul_pos hπ (show (0:ℝ) < lat + 90 by linarith)]
  · nlinarith [mul_pos hπ (show (0:ℝ) < 90 - lat by linarith)]

/-- Claim C7. Both conversion directions fail exactly when an input coordinate is
non-finite; latitude is clamped to `±85.05112878°` before projecting (the clamped
value is in range and projecting the clamped latitude changes nothing); finite
inputs produce the (finite, real) spherical-model result with radius 6378137 m. -/
theorem projection_guard_and_clamp :
    (∀ lonDeg latDeg : Option ℝ,
        (jsLonLatToWebMercator lonDeg latDeg).isOk = (lonDeg.isSome && latDeg.isSome)) ∧
    (∀ x y : Option ℝ, (jsWebMercatorToLonLat x y).isOk = (x.isSome && y.isSome)) ∧
    (∀ lat : ℝ, -MAX_LAT ≤ clampLatDeg lat ∧ clampLatDeg lat ≤ MAX_LAT) ∧
    (∀ lat : ℝ, mercY lat = mercY (clampLatDeg lat)) ∧
    (∀ lon lat : ℝ, jsLonLatToWebMercator (some lon) (some lat) =
        .ok (lonLatToWebMercator lon lat)) ∧
    Rmerc = 6378137 ∧ MAX_LAT = 85.05112878 := by
  refine ⟨fun lonDeg latDeg => ?_, fun x y => ?_, clampLatDeg_mem, fun lat => ?_,
    fun lon lat => rfl, rfl, rfl⟩
  · cases lonDeg <;> cases latDeg <;> rfl
  · cases x <;> cases y <;> rfl
  · unfold mercY
    rw [clampLatDeg_idem]

/-- Claim C10. The projection round-trips exactly over real arithmetic: for any
longitude and any latitude within `±85.05112878°`, `webMercatorToLonLat` applied to
`lonLatToWebMercator` recovers the original pair. -/
theorem webMercator_roundtrip (lon lat : ℝ) (h1 : -MAX_LAT ≤ lat) (h2 : lat ≤ MAX_LAT) :
    webMercatorToLonLat (lonLatToWebMercator lon lat).1 (lonLatToWebMercator lon lat).2 =
      (lon, lat) := by
  have hR : Rmerc ≠ 0 := ne_of_gt Rmerc_pos
  have hπ : π ≠ 0 := Real.pi_ne_zero
  obtain ⟨hθ1, hθ2⟩ := theta_mem h1 h2
  have hc : clampLatDeg lat = lat := clampLatDeg_eq_self h1 h2
  unfold webMercatorToLonLat lonLatToWebMercator mercX mercY
  rw [hc]
  have htan : 0 < Real.tan (π / 4 + lat * π / 180 / 2) :=
    Real.tan_pos_of_pos_of_lt_pi_div_two hθ1 hθ2
  have hy : Rmerc * Real.log (Real.tan (π / 4 + lat * π / 180 / 2)) / Rmerc =
      Real.log (Real.tan (π / 4 + lat * π / 180 / 2)) := by
    field_simp
  refine Prod.ext ?_ ?_
  · show Rmerc * (lon * π / 180) / Rmerc * 180 / π = lon
    field_simp
    ring
  · show (2 * Real.arctan (Real.exp (Rmerc * Real.log (Real.tan (π / 4 + lat * π / 180 / 2)) /
        Rmerc)) - π / 2) * 180 / π = lat
    rw [hy, Real.exp_log htan, Real.arctan_tan (by linarith) hθ2]
    field_simp
    ring

/-- Witness for C10: the round-trip at longitude 69°, latitude 41° (within the
clamp range). -/
theorem webMercator_roundtrip_witness :
    -MAX_LAT ≤ (41 : ℝ) ∧ (41 : ℝ) ≤ MAX_LAT ∧
    webMercatorToLonLat (lonLatToWebMercator 69 41).1 (lonLatToWebMercator 69 41).2 =
      (69, 41) :=
  ⟨by norm_num [MAX_LAT], by norm_num [MAX_LAT],
    webMercator_roundtrip 69 41 (by norm_num [MAX_LAT]) (by norm_num [MAX_LAT])⟩

/-! ## C3 : the persisted manifest's top-level keys -/

/-- Claim C3 counterexample. The manifest `initDataRelease` persists (and whose
validity the repo's own test asserts) carries the top-level key `notes`, which is
not among the five keys the claim allows, so the claim's key discipline rejects the
very document the system writes. -/
theorem init_manifest_has_notes_key_cex :
    "notes" ∈ initManifestTopLevelKeys ∧ "notes" ∉ specAllowedTopLevelKeys ∧
    specValidateTopLevel initManifestTopLevelKeys = false := by decide

/-- Claim C3 (amended). With `notes` added to the allowed top-level keys, the document
`initDataRelease` persists validates, and any document carrying a key outside the
six allowed keys is rejected. -/
theorem manifest_schema_keys_amended :
    amendedValidateTopLevel initManifestTopLevelKeys = true ∧
    (∀ keys : List String, ∀ k, k ∈ keys → k ∉ amendedAllowedTopLevelKeys →
        amendedValidateTopLevel keys = false) := by
  refine ⟨by decide, fun keys k hk hnk => ?_⟩
  unfold amendedValidateTopLevel
  have hall : keys.all (fun k => decide (k ∈ amendedAllowedTopLevelKeys)) = false := by
    by_contra h
    have h' := List.all_eq_true.1 (Bool.of_not_eq_false h) k hk
    exact hnk (of_decide_eq_true h')
  rw [hall, Bool.and_false]

/-- Witness for the amended C3: a document with the unknown top-level key `bogus`
is rejected. -/
theorem manifest_schema_keys_amended_witness :
    "bogus" ∈ ["run_id", "bogus"] ∧ "bogus" ∉ amendedAllowedTopLevelKeys ∧
    amendedValidateTopLevel ["run_id", "bogus"] = false :=
  ⟨by decide, by decide,
    manifest_schema_keys_amended.2 ["run_id", "bogus"] "bogus" (by decide) (by decide)⟩

/-! ## C9 : bbox scaling -/

/-- For a well-ordered interval the JS `clamp` lands inside it. -/
theorem clampQ_mem {lo hi : ℚ} (v : ℚ) (h : lo ≤ hi) :
    lo ≤ clampQ v lo hi ∧ clampQ v lo hi ≤ hi := by
  unfold clampQ
  exact ⟨le_min h (le_max_left lo v), min_le_left hi _⟩

/-- Claim C9 counterexample. `scaleBboxAroundCenter` does **not** reject scale values
above 1: with `bbox = [0,0,1,1]` and `scale = 2` it succeeds (returning the clamped
original box) instead of raising an error. -/
theorem scaleBboxAroundCenter_accepts_scale_two_cex :
    scaleBboxAroundCenter ⟨0, 0, 1, 1⟩ 2 none none = .ok ⟨0, 0, 1, 1⟩ := by
  have habs : ¬(|(2:ℚ) - 1| < 1 / 1000000000000) := by
    rw [show (2:ℚ) - 1 = 1 by norm_num, abs_one]
    norm_num
  simp only [scaleBboxAroundCenter, clampQ, Option.getD]
  rw [if_neg (by norm_num), if_neg habs]
  norm_num

/-- Claim C9 (amended). `scaleBboxWgs84` succeeds exactly for scale in `(0, 1]` and
its result never exceeds the well-formed input bbox; `scaleBboxAroundCenter`
rejects only `scale ≤ 0`, and whenever it succeeds on a well-formed bbox (own
center or explicit center) its result never exceeds the input bbox. -/
theorem scaleBbox_containment_and_guards :
    (∀ (b : Bbox ℚ) (s : ℚ), (scaleBboxWgs84 b s).isOk = true ↔ 0 < s ∧ s ≤ 1) ∧
    (∀ (b : Bbox ℚ) (s : ℚ) (out : Bbox ℚ), scaleBboxWgs84 b s = .ok out →
        b.west ≤ b.east → b.south ≤ b.north →
        b.west ≤ out.west ∧ out.east ≤ b.east ∧ b.south ≤ out.south ∧ out.north ≤ b.north) ∧
    (∀ (b : Bbox ℚ) (s : ℚ) (cl cla : Option ℚ), s ≤ 0 →
        scaleBboxAroundCenter b s cl cla = .error "Invalid --bbox_scale") ∧
    (∀ (b : Bbox ℚ) (s : ℚ) (cl cla : Option ℚ) (out : Bbox ℚ),
        scaleBboxAroundCenter b s cl cla = .ok out →
        b.west ≤ b.east → b.south ≤ b.north →
        b.west ≤ out.west ∧ out.east ≤ b.east ∧ b.south ≤ out.south ∧ out.north ≤ b.north) := by
  refine ⟨fun b s => ?_, fun b s out hok hwe hsn => ?_, fun b s cl cla h => ?_,
    fun b s cl cla out hok hwe hsn => ?_⟩
  · unfold scaleBboxWgs84
    split_ifs with h
    · constructor
      · intro hfalse
        exact absurd hfalse (by simp [Except.isOk, Except.toBool])
      · rintro ⟨h1, h2⟩
        exfalso
        rcases h with h | h <;> linarith
    · push_neg at h
      exact iff_of_true (by simp [Except.isOk, Except.toBool]) ⟨h.1, h.2⟩
  · unfold scaleBboxWgs84 at hok
    split_ifs at hok with hbad
    · push_neg at hbad
      obtain ⟨hs0, hs1⟩ := hbad
      injection hok with hout
      subst hout
      refine ⟨?_, ?_, ?_, ?_⟩
      · show b.west ≤ (b.west + b.east) / 2 - (b.east - b.west) * s / 2
        nlinarith [mul_nonneg (sub_nonneg.2 hwe) (sub_nonneg.2 hs1)]
      · show (b.west + b.east) / 2 + (b.east - b.west) * s / 2 ≤ b.east
        nlinarith [mul_nonneg (sub_nonneg.2 hwe) (sub_nonneg.2 hs1)]
      · show b.south ≤ (b.south + b.north) / 2 - (b.north - b.south) * s / 2
        nlinarith [mul_nonneg (sub_nonneg.2 hsn) (sub_nonneg.2 hs1)]
      · show (b.south + b.north) / 2 + (b.north - b.south) * s / 2 ≤ b.north
        nlinarith [mul_nonneg (sub_nonneg.2 hsn) (sub_nonneg.2 hs1)]
  · unfold scaleBboxAroundCenter
    rw [if_pos h]
  · simp only [scaleBboxAroundCenter] at hok
    split_ifs at hok
    all_goals
      injection hok with hout
      subst hout
      first
      | exact ⟨le_refl _, le_refl _, le_refl _, le_refl _⟩
      | exact ⟨(clampQ_mem _ hwe).1, (clampQ_mem _ hwe).2,
          (clampQ_mem _ hsn).1, (clampQ_mem _ hsn).2⟩

/-- Witness for the amended C9: halving `[0,0,1,1]` about its center yields
`[1/4,1/4,3/4,3/4]`, contained in the original. -/
theorem scaleBbox_containment_and_guards_witness :
    scaleBboxWgs84 ⟨0, 0, 1, 1⟩ (1/2) = .ok ⟨1/4, 1/4, 3/4, 3/4⟩ ∧
    ((0:ℚ) ≤ 1/4 ∧ (3:ℚ)/4 ≤ 1 ∧ (0:ℚ) ≤ 1/4 ∧ (3:ℚ)/4 ≤ 1) := by
  have hok : scaleBboxWgs84 ⟨0, 0, 1, 1⟩ (1/2) = .ok ⟨1/4, 1/4, 3/4, 3/4⟩ := by
    unfold scaleBboxWgs84
    rw [if_neg (by norm_num)]
    simp only [Except.ok.injEq, Bbox.mk.injEq]
    norm_num
  exact ⟨hok, scaleBbox_containment_and_guards.2.1 ⟨0, 0, 1, 1⟩ (1/2) ⟨1/4, 1/4, 3/4, 3/4⟩
    hok (by norm_num) (by norm_num)⟩

/-! ## Helper lemmas: the tile grid -/

theorem mkTile_x (x0 y1 dx dy ox oy : ℝ) (x y : ℕ) :
    (mkTile x0 y1 dx dy ox oy x y).x = x := rfl

theorem mkTile_y (x0 y1 dx dy ox oy : ℝ) (x y : ℕ) :
    (mkTile x0 y1 dx dy ox oy x y).y = y := rfl

theorem mkTile_bbox_3857 (x0 y1 dx dy ox oy : ℝ) (x y : ℕ) :
    (mkTile x0 y1 dx dy ox oy x y).bbox_3857 =
      ⟨x0 + dx * x, y1 - dy * (y + 1), x0 + dx * (x + 1), y1 - dy * y⟩ := rfl

theorem mkTile_bbox_overlap_3857 (x0 y1 dx dy ox oy : ℝ) (x y : ℕ) :
    (mkTile x0 y1 dx dy ox oy x y).bbox_overlap_3857 =
      ⟨x0 + dx * x - ox, y1 - dy * (y + 1) - oy, x0 + dx * (x + 1) + ox, y1 - dy * y + oy⟩ := rfl

theorem mkTile_bbox (x0 y1 dx dy ox oy : ℝ) (x y : ℕ) :
    (mkTile x0 y1 dx dy ox oy x y).bbox =
      webMercatorBboxToWgs84Bbox ⟨x0 + dx * x, y1 - dy * (y + 1), x0 + dx * (x + 1), y1 - dy * y⟩ :=
  rfl

theorem mem_gridTiles {x0 y1 dx dy ox oy : ℝ} {g : ℕ} {t : Tile} :
    t ∈ gridTiles x0 y1 dx dy ox oy g ↔
      ∃ x y, x < g ∧ y < g ∧ t = mkTile x0 y1 dx dy ox oy x y := by
  simp only [gridTiles, List.mem_flatMap, List.mem_map, List.mem_range]
  constructor
  · rintro ⟨y, hy, x, hx, rfl⟩
    exact ⟨x, y, hx, hy, rfl⟩
  · rintro ⟨x, y, hx, hy, rfl⟩
    exact ⟨y, hy, x, hx, rfl⟩

/-- Successful evaluation of `splitBboxGridWgs84` when all three guards pass. -/
theorem splitBboxGridWgs84_eq_ok (bbox : Bbox ℝ) (g : ℤ) (f : ℝ)
    (hg : 1 ≤ g ∧ g ≤ 64) (hf : 0 ≤ f ∧ f < 0.49)
    (hw : 0 < mercX bbox.east - mercX bbox.west)
    (hh : 0 < mercY bbox.north - mercY bbox.south) :
    splitBboxGridWgs84 bbox g f =
      .ok (gridTiles (mercX bbox.west) (mercY bbox.north)
        ((mercX bbox.east - mercX bbox.west) / (g : ℝ))
        ((mercY bbox.north - mercY bbox.south) / (g : ℝ))
        ((mercX bbox.east - mercX bbox.west) / (g : ℝ) * f)
        ((mercY bbox.north - mercY bbox.south) / (g : ℝ) * f) g.toNat) := by
  simp only [splitBboxGridWgs84, wgs84BboxToWebMercatorBbox]
  rw [if_pos hg, if_pos hf, if_pos ⟨hw, hh⟩]

theorem mercX_sub (e w : ℝ) : mercX e - mercX w = Rmerc * π / 180 * (e - w) := by
  unfold mercX
  ring

theorem mercY_zero : mercY 0 = 0 := by
  have h0 : clampLatDeg 0 = 0 :=
    clampLatDeg_eq_self (by norm_num [MAX_LAT]) (by norm_num [MAX_LAT])
  simp [mercY, h0, Real.tan_pi_div_four]

theorem mercY_one_pos : 0 < mercY 1 := by
  have h1 : clampLatDeg 1 = 1 :=
    clampLatDeg_eq_self (by norm_num [MAX_LAT]) (by norm_num [MAX_LAT])
  have hθ := @theta_mem 1 (by norm_num [MAX_LAT]) (by norm_num [MAX_LAT])
  have hπ := Real.pi_pos
  have hlt : Real.tan (π / 4) < Real.tan (π / 4 + 1 * π / 180 / 2) := by
    apply Real.tan_lt_tan_of_lt_of_lt_pi_div_two (by linarith) hθ.2
    linarith
  rw [Real.tan_pi_div_four] at hlt
  unfold mercY
  rw [h1]
  exact mul_pos Rmerc_pos (Real.log_pos hlt)

theorem merc_width_pos_01 : 0 < mercX 1 - mercX 0 := by
  rw [mercX_sub]
  nlinarith [mul_pos Rmerc_pos Real.pi_pos]

theorem merc_height_pos_01 : 0 < mercY 1 - mercY 0 := by
  rw [mercY_zero, sub_zero]
  exact mercY_one_pos

/-- Any point of a length-`d·g` interval lies in one of the `g` steps. -/
theorem exists_step_interval (a d : ℝ) (hd : 0 < d) (g : ℕ) (hg : 0 < g) (p : ℝ)
    (h1 : a ≤ p) (h2 : p ≤ a + d * g) :
    ∃ i, i < g ∧ a + d * i ≤ p ∧ p ≤ a + d * (i + 1) := by
  induction g with
  | zero => exact absurd hg (lt_irrefl 0)
  | succ n ih =>
    by_cases hn : n = 0
    · subst hn
      refine ⟨0, Nat.zero_lt_one, by simpa using h1, ?_⟩
      simpa using h2
    · by_cases hcase : p ≤ a + d * n
      · obtain ⟨i, hi, hlo, hhi⟩ := ih (Nat.pos_of_ne_zero hn) hcase
        exact ⟨i, Nat.lt_succ_of_lt hi, hlo, hhi⟩
      · push_neg at hcase
        refine ⟨n, Nat.lt_succ_self n, le_of_lt hcase, ?_⟩
        have : ((n : ℝ) + 1) = ((n + 1 : ℕ) : ℝ) := by push_cast; ring
        rw [this]
        exact h2

/-- Distinct steps of an ascending subdivision have disjoint interiors. -/
theorem Ioo_steps_disjoint (a d : ℝ) (hd : 0 < d) {i j : ℕ} (hij : i ≠ j) :
    Set.Ioo (a + d * i) (a + d * (i + 1)) ∩ Set.Ioo (a + d * j) (a + d * (j + 1)) = ∅ := by
  ext p
  simp only [Set.mem_inter_iff, Set.mem_Ioo, Set.mem_empty_iff_false, iff_false, not_and]
  intro hi1 hi2 hj1
  rcases Nat.lt_or_ge i j with h | h
  · have hc : (i : ℝ) + 1 ≤ j := by exact_mod_cast h
    nlinarith
  · have hji : j < i := lt_of_le_of_ne h (Ne.symm hij)
    have hc : (j : ℝ) + 1 ≤ i := by exact_mod_cast hji
    nlinarith

/-- Distinct steps of a descending subdivision have disjoint interiors. -/
theorem Ioo_steps_disjoint_desc (a d : ℝ) (hd : 0 < d) {i j : ℕ} (hij : i ≠ j) :
    Set.Ioo (a - d * (i + 1)) (a - d * i) ∩ Set.Ioo (a - d * (j + 1)) (a - d * j) = ∅ := by
  ext p
  simp only [Set.mem_inter_iff, Set.mem_Ioo, Set.mem_empty_iff_false, iff_false, not_and]
  intro hi1 hi2 hj1
  rcases Nat.lt_or_ge i j with h | h
  · have hc : (i : ℝ) + 1 ≤ j := by exact_mod_cast h
    nlinarith
  · have hji : j < i := lt_of_le_of_ne h (Ne.symm hij)
    have hc : (j : ℝ) + 1 ≤ i := by exact_mod_cast hji
    nlinarith

theorem toNat_cast_eq {g : ℤ} (hg : 1 ≤ g) : ((g.toNat : ℕ) : ℝ) = (g : ℝ) := by
  have := Int.toNat_of_nonneg (by linarith : (0:ℤ) ≤ g)
  exact_mod_cast congrArg (Int.cast : ℤ → ℝ) this

/-! ## C8 : error cases of splitBboxGridWgs84 -/

/-- Claim C8 counterexample. The guards are checked in order, so with an invalid grid
**and** an out-of-range overlap the function fails with the invalid-grid error, not
the invalid-overlap one — the claim's "invalid-overlap iff overlap out of range"
fails in the right-to-left direction. -/
theorem split_error_priority_cex :
    ¬(0 ≤ (0.6 : ℝ) ∧ (0.6 : ℝ) < 0.49) ∧
    splitBboxGridWgs84 ⟨0, 0, 1, 1⟩ 0 0.6 = .error .invalidGrid ∧
    splitBboxGridWgs84 ⟨0, 0, 1, 1⟩ 0 0.6 ≠ .error .invalidOverlap := by
  have hgrid : ¬(1 ≤ (0:ℤ) ∧ (0:ℤ) ≤ 64) := by omega
  have heval : splitBboxGridWgs84 ⟨0, 0, 1, 1⟩ 0 0.6 = .error .invalidGrid := by
    unfold splitBboxGridWgs84
    rw [if_neg hgrid]
  refine ⟨by norm_num, heval, ?_⟩
  rw [heval]
  simp

/-- Claim C8 (amended). `splitBboxGridWgs84` fails with the invalid-grid error iff the
grid is outside 1..64; with the invalid-overlap error iff the grid is valid and the
overlap is outside `[0, 0.49)`; with the degenerate-bbox error iff both parameters
are valid and the projected width or height is non-positive; and succeeds iff all
three guards hold (guards are checked in this order). -/
theorem splitBboxGridWgs84_error_cases (bbox : Bbox ℝ) (g : ℤ) (f : ℝ) :
    (splitBboxGridWgs84 bbox g f = .error .invalidGrid ↔ ¬(1 ≤ g ∧ g ≤ 64)) ∧
    (splitBboxGridWgs84 bbox g f = .error .invalidOverlap ↔
      (1 ≤ g ∧ g ≤ 64) ∧ ¬(0 ≤ f ∧ f < 0.49)) ∧
    (splitBboxGridWgs84 bbox g f = .error .degenerateBbox ↔
      (1 ≤ g ∧ g ≤ 64) ∧ (0 ≤ f ∧ f < 0.49) ∧
      ¬(0 < mercX bbox.east - mercX bbox.west ∧
        0 < mercY bbox.north - mercY bbox.south)) ∧
    ((∃ ts, splitBboxGridWgs84 bbox g f = .ok ts) ↔
      (1 ≤ g ∧ g ≤ 64) ∧ (0 ≤ f ∧ f < 0.49) ∧
      0 < mercX bbox.east - mercX bbox.west ∧
      0 < mercY bbox.north - mercY bbox.south) := by
  simp only [splitBboxGridWgs84, wgs84BboxToWebMercatorBbox]
  split_ifs with h1 h2 h3
  · exact ⟨iff_of_false (by simp) (not_not_intro h1),
      iff_of_false (by simp) (fun hc => hc.2 h2),
      iff_of_false (by simp) (fun hc => hc.2.2 h3),
      iff_of_true ⟨_, rfl⟩ ⟨h1, h2, h3.1, h3.2⟩⟩
  · exact ⟨iff_of_false (by simp) (not_not_intro h1),
      iff_of_false (by simp) (fun hc => hc.2 h2),
      iff_of_true rfl ⟨h1, h2, h3⟩,
      iff_of_false (by rintro ⟨ts, hts⟩; simp at hts) (fun hc => h3 ⟨hc.2.2.1, hc.2.2.2⟩)⟩
  · exact ⟨iff_of_false (by simp) (not_not_intro h1),
      iff_of_true rfl ⟨h1, h2⟩,
      iff_of_false (by simp) (fun hc => h2 hc.2.1),
      iff_of_false (by rintro ⟨ts, hts⟩; simp at hts) (fun hc => h2 hc.2.1)⟩
  · exact ⟨iff_of_true rfl h1,
      iff_of_false (by simp) (fun hc => h1 hc.1),
      iff_of_false (by simp) (fun hc => h1 hc.1),
      iff_of_false (by rintro ⟨ts, hts⟩; simp at hts) (fun hc => h1 hc.1)⟩

/-! ## C1 : context-box overlap width of adjacent tiles -/

theorem mkTile_ov_west (x0 y1 dx dy ox oy : ℝ) (x y : ℕ) :
    (mkTile x0 y1 dx dy ox oy x y).bbox_overlap_3857.west = x0 + dx * x - ox := rfl

theorem mkTile_ov_east (x0 y1 dx dy ox oy : ℝ) (x y : ℕ) :
    (mkTile x0 y1 dx dy ox oy x y).bbox_overlap_3857.east = x0 + dx * (x + 1) + ox := rfl

theorem mkTile_ov_south (x0 y1 dx dy ox oy : ℝ) (x y : ℕ) :
    (mkTile x0 y1 dx dy ox oy x y).bbox_overlap_3857.south = y1 - dy * (y + 1) - oy := rfl

theorem mkTile_ov_north (x0 y1 dx dy ox oy : ℝ) (x y : ℕ) :
    (mkTile x0 y1 dx dy ox oy x y).bbox_overlap_3857.north = y1 - dy * y + oy := rfl

theorem mkTile_core_west (x0 y1 dx dy ox oy : ℝ) (x y : ℕ) :
    (mkTile x0 y1 dx dy ox oy x y).bbox_3857.west = x0 + dx * x := rfl

theorem mkTile_core_east (x0 y1 dx dy ox oy : ℝ) (x y : ℕ) :
    (mkTile x0 y1 dx dy ox oy x y).bbox_3857.east = x0 + dx * (x + 1) := rfl

theorem mkTile_core_south (x0 y1 dx dy ox oy : ℝ) (x y : ℕ) :
    (mkTile x0 y1 dx dy ox oy x y).bbox_3857.south = y1 - dy * (y + 1) := rfl

theorem mkTile_core_north (x0 y1 dx dy ox oy : ℝ) (x y : ℕ) :
    (mkTile x0 y1 dx dy ox oy x y).bbox_3857.north = y1 - dy * y := rfl

/-- Claim C1 counterexample. For AOI `[0,0,1,1]`, `N = 2`, overlap `1/4`, the context
boxes of the horizontally adjacent tiles `(0,0)` and `(1,0)` overlap in Web-Mercator
by `2·f·dx` (each context box extends `f·dx` past the shared core edge), **not** by
`f·dx` as claimed. -/
theorem context_overlap_width_cex :
    splitBboxGridWgs84 ⟨0, 0, 1, 1⟩ 2 (1/4) =
      .ok (gridTiles (mercX 0) (mercY 1)
        ((mercX 1 - mercX 0) / ((2:ℤ) : ℝ)) ((mercY 1 - mercY 0) / ((2:ℤ) : ℝ))
        ((mercX 1 - mercX 0) / ((2:ℤ) : ℝ) * (1/4))
        ((mercY 1 - mercY 0) / ((2:ℤ) : ℝ) * (1/4)) (Int.toNat 2)) ∧
    mkTile (mercX 0) (mercY 1)
        ((mercX 1 - mercX 0) / ((2:ℤ) : ℝ)) ((mercY 1 - mercY 0) / ((2:ℤ) : ℝ))
        ((mercX 1 - mercX 0) / ((2:ℤ) : ℝ) * (1/4))
        ((mercY 1 - mercY 0) / ((2:ℤ) : ℝ) * (1/4)) 0 0 ∈
      gridTiles (mercX 0) (mercY 1)
        ((mercX 1 - mercX 0) / ((2:ℤ) : ℝ)) ((mercY 1 - mercY 0) / ((2:ℤ) : ℝ))
        ((mercX 1 - mercX 0) / ((2:ℤ) : ℝ) * (1/4))
        ((mercY 1 - mercY 0) / ((2:ℤ) : ℝ) * (1/4)) (Int.toNat 2) ∧
    mkTile (mercX 0) (mercY 1)
        ((mercX 1 - mercX 0) / ((2:ℤ) : ℝ)) ((mercY 1 - mercY 0) / ((2:ℤ) : ℝ))
        ((mercX 1 - mercX 0) / ((2:ℤ) : ℝ) * (1/4))
        ((mercY 1 - mercY 0) / ((2:ℤ) : ℝ) * (1/4)) 1 0 ∈
      gridTiles (mercX 0) (mercY 1)
        ((mercX 1 - mercX 0) / ((2:ℤ) : ℝ)) ((mercY 1 - mercY 0) / ((2:ℤ) : ℝ))
        ((mercX 1 - mercX 0) / ((2:ℤ) : ℝ) * (1/4))
        ((mercY 1 - mercY 0) / ((2:ℤ) : ℝ) * (1/4)) (Int.toNat 2) ∧
    min (mkTile (mercX 0) (mercY 1)
        ((mercX 1 - mercX 0) / ((2:ℤ) : ℝ)) ((mercY 1 - mercY 0) / ((2:ℤ) : ℝ))
        ((mercX 1 - mercX 0) / ((2:ℤ) : ℝ) * (1/4))
        ((mercY 1 - mercY 0) / ((2:ℤ) : ℝ) * (1/4)) 0 0).bbox_overlap_3857.east
      (mkTile (mercX 0) (mercY 1)
        ((mercX 1 - mercX 0) / ((2:ℤ) : ℝ)) ((mercY 1 - mercY 0) / ((2:ℤ) : ℝ))
        ((mercX 1 - mercX 0) / ((2:ℤ) : ℝ) * (1/4))
        ((mercY 1 - mercY 0) / ((2:ℤ) : ℝ) * (1/4)) 1 0).bbox_overlap_3857.east -
    max (mkTile (mercX 0) (mercY 1)
        ((mercX 1 - mercX 0) / ((2:ℤ) : ℝ)) ((mercY 1 - mercY 0) / ((2:ℤ) : ℝ))
        ((mercX 1 - mercX 0) / ((2:ℤ) : ℝ) * (1/4))
        ((mercY 1 - mercY 0) / ((2:ℤ) : ℝ) * (1/4)) 0 0).bbox_overlap_3857.west
      (mkTile (mercX 0) (mercY 1)
        ((mercX 1 - mercX 0) / ((2:ℤ) : ℝ)) ((mercY 1 - mercY 0) / ((2:ℤ) : ℝ))
        ((mercX 1 - mercX 0) / ((2:ℤ) : ℝ) * (1/4))
        ((mercY 1 - mercY 0) / ((2:ℤ) : ℝ) * (1/4)) 1 0).bbox_overlap_3857.west ≠
    (1/4) * ((mercX 1 - mercX 0) / ((2:ℤ) : ℝ)) := by
  have hdx : 0 < (mercX 1 - mercX 0) / ((2:ℤ) : ℝ) :=
    div_pos merc_width_pos_01 (by push_cast; norm_num)
  refine ⟨?_, ?_, ?_, ?_⟩
  · exact splitBboxGridWgs84_eq_ok ⟨0, 0, 1, 1⟩ 2 (1/4) ⟨by omega, by omega⟩
      ⟨by norm_num, by norm_num⟩ merc_width_pos_01 merc_height_pos_01
  · exact mem_gridTiles.2 ⟨0, 0, by decide, by decide, rfl⟩
  · exact mem_gridTiles.2 ⟨1, 0, by decide, by decide, rfl⟩
  · rw [mkTile_ov_east, mkTile_ov_east, mkTile_ov_west, mkTile_ov_west]
    rw [min_eq_left (by push_cast; nlinarith [hdx.le]),
      max_eq_right (by push_cast; nlinarith [hdx.le])]
    push_cast
    intro hcontra
    nlinarith [hdx]

/-- Claim C1 (amended). For a successful grid split, any two horizontally adjacent
tiles' context boxes overlap on the x-axis by exactly `2·f·dx`, and any two
vertically adjacent tiles' context boxes overlap on the y-axis by exactly `2·f·dy`
(each context box extends `f·dx` resp. `f·dy` beyond the shared core edge). -/
theorem context_overlap_width_eq_two_mul
    (bbox : Bbox ℝ) (g : ℤ) (f : ℝ) (ts : List Tile) (t1 t2 : Tile)
    (hg : 1 ≤ g ∧ g ≤ 64) (hf : 0 ≤ f ∧ f < 0.49)
    (hw : 0 < mercX bbox.east - mercX bbox.west)
    (hh : 0 < mercY bbox.north - mercY bbox.south)
    (hok : splitBboxGridWgs84 bbox g f = .ok ts)
    (ht1 : t1 ∈ ts) (ht2 : t2 ∈ ts) :
    (t1.y = t2.y → t2.x = t1.x + 1 →
      min t1.bbox_overlap_3857.east t2.bbox_overlap_3857.east -
        max t1.bbox_overlap_3857.west t2.bbox_overlap_3857.west =
        2 * ((mercX bbox.east - mercX bbox.west) / (g : ℝ) * f)) ∧
    (t1.x = t2.x → t2.y = t1.y + 1 →
      min t1.bbox_overlap_3857.north t2.bbox_overlap_3857.north -
        max t1.bbox_overlap_3857.south t2.bbox_overlap_3857.south =
        2 * ((mercY bbox.north - mercY bbox.south) / (g : ℝ) * f)) := by
  rw [splitBboxGridWgs84_eq_ok bbox g f hg hf hw hh] at hok
  injection hok with hts
  subst hts
  have hgpos : (0 : ℝ) < (g : ℝ) := by exact_mod_cast lt_of_lt_of_le zero_lt_one hg.1
  have hdx : 0 < (mercX bbox.east - mercX bbox.west) / (g : ℝ) := div_pos hw hgpos
  have hdy : 0 < (mercY bbox.north - mercY bbox.south) / (g : ℝ) := div_pos hh hgpos
  obtain ⟨a1, b1, ha1, hb1, rfl⟩ := mem_gridTiles.1 ht1
  obtain ⟨a2, b2, ha2, hb2, rfl⟩ := mem_gridTiles.1 ht2
  constructor
  · intro _ hx21
    rw [mkTile_x, mkTile_x] at hx21
    subst hx21
    rw [mkTile_ov_east, mkTile_ov_east, mkTile_ov_west, mkTile_ov_west]
    rw [min_eq_left (by push_cast; nlinarith [hdx.le]),
      max_eq_right (by push_cast; nlinarith [hdx.le])]
    push_cast
    ring
  · intro hx21 hy21
    rw [mkTile_y, mkTile_y] at hy21
    subst hy21
    rw [mkTile_ov_north, mkTile_ov_north, mkTile_ov_south, mkTile_ov_south]
    rw [min_eq_right (by push_cast; nlinarith [hdy.le]),
      max_eq_left (by push_cast; nlinarith [hdy.le])]
    push_cast
    ring

/-- Witness for the amended C1: the adjacent tiles `(0,0)` and `(1,0)` of the
`N = 2`, `f = 1/4` split of `[0,0,1,1]`. -/
theorem context_overlap_width_eq_two_mul_witness :
    ((mkTile (mercX 0) (mercY 1)
        ((mercX 1 - mercX 0) / ((2:ℤ) : ℝ)) ((mercY 1 - mercY 0) / ((2:ℤ) : ℝ))
        ((mercX 1 - mercX 0) / ((2:ℤ) : ℝ) * (1/4))
        ((mercY 1 - mercY 0) / ((2:ℤ) : ℝ) * (1/4)) 0 0).y =
      (mkTile (mercX 0) (mercY 1)
        ((mercX 1 - mercX 0) / ((2:ℤ) : ℝ)) ((mercY 1 - mercY 0) / ((2:ℤ) : ℝ))
        ((mercX 1 - mercX 0) / ((2:ℤ) : ℝ) * (1/4))
        ((mercY 1 - mercY 0) / ((2:ℤ) : ℝ) * (1/4)) 1 0).y →
      (mkTile (mercX 0) (mercY 1)
        ((mercX 1 - mercX 0) / ((2:ℤ) : ℝ)) ((mercY 1 - mercY 0) / ((2:ℤ) : ℝ))
        ((mercX 1 - mercX 0) / ((2:ℤ) : ℝ) * (1/4))
        ((mercY 1 - mercY 0) / ((2:ℤ) : ℝ) * (1/4)) 1 0).x =
      (mkTile (mercX 0) (mercY 1)
        ((mercX 1 - mercX 0) / ((2:ℤ) : ℝ)) ((mercY 1 - mercY 0) / ((2:ℤ) : ℝ))
        ((mercX 1 - mercX 0) / ((2:ℤ) : ℝ) * (1/4))
        ((mercY 1 - mercY 0) / ((2:ℤ) : ℝ) * (1/4)) 0 0).x + 1 →
      min (mkTile (mercX 0) (mercY 1)
        ((mercX 1 - mercX 0) / ((2:ℤ) : ℝ)) ((mercY 1 - mercY 0) / ((2:ℤ) : ℝ))
        ((mercX 1 - mercX 0) / ((2:ℤ) : ℝ) * (1/4))
        ((mercY 1 - mercY 0) / ((2:ℤ) : ℝ) * (1/4)) 0 0).bbox_overlap_3857.east
        (mkTile (mercX 0) (mercY 1)
        ((mercX 1 - mercX 0) / ((2:ℤ) : ℝ)) ((mercY 1 - mercY 0) / ((2:ℤ) : ℝ))
        ((mercX 1 - mercX 0) / ((2:ℤ) : ℝ) * (1/4))
        ((mercY 1 - mercY 0) / ((2:ℤ) : ℝ) * (1/4)) 1 0).bbox_overlap_3857.east -
      max (mkTile (mercX 0) (mercY 1)
        ((mercX 1 - mercX 0) / ((2:ℤ) : ℝ)) ((mercY 1 - mercY 0) / ((2:ℤ) : ℝ))
        ((mercX 1 - mercX 0) / ((2:ℤ) : ℝ) * (1/4))
        ((mercY 1 - mercY 0) / ((2:ℤ) : ℝ) * (1/4)) 0 0).bbox_overlap_3857.west
        (mkTile (mercX 0) (mercY 1)
        ((mercX 1 - mercX 0) / ((2:ℤ) : ℝ)) ((mercY 1 - mercY 0) / ((2:ℤ) : ℝ))
        ((mercX 1 - mercX 0) / ((2:ℤ) : ℝ) * (1/4))
        ((mercY 1 - mercY 0) / ((2:ℤ) : ℝ) * (1/4)) 1 0).bbox_overlap_3857.west =
      2 * ((mercX 1 - mercX 0) / ((2:ℤ) : ℝ) * (1/4))) ∧
    ((mkTile (mercX 0) (mercY 1)
        ((mercX 1 - mercX 0) / ((2:ℤ) : ℝ)) ((mercY 1 - mercY 0) / ((2:ℤ) : ℝ))
        ((mercX 1 - mercX 0) / ((2:ℤ) : ℝ) * (1/4))
        ((mercY 1 - mercY 0) / ((2:ℤ) : ℝ) * (1/4)) 0 0).x =
      (mkTile (mercX 0) (mercY 1)
        ((mercX 1 - mercX 0) / ((2:ℤ) : ℝ)) ((mercY 1 - mercY 0) / ((2:ℤ) : ℝ))
        ((mercX 1 - mercX 0) / ((2:ℤ) : ℝ) * (1/4))
        ((mercY 1 - mercY 0) / ((2:ℤ) : ℝ) * (1/4)) 1 0).x →
      (mkTile (mercX 0) (mercY 1)
        ((mercX 1 - mercX 0) / ((2:ℤ) : ℝ)) ((mercY 1 - mercY 0) / ((2:ℤ) : ℝ))
        ((mercX 1 - mercX 0) / ((2:ℤ) : ℝ) * (1/4))
        ((mercY 1 - mercY 0) / ((2:ℤ) : ℝ) * (1/4)) 1 0).y =
      (mkTile (mercX 0) (mercY 1)
        ((mercX 1 - mercX 0) / ((2:ℤ) : ℝ)) ((mercY 1 - mercY 0) / ((2:ℤ) : ℝ))
        ((mercX 1 - mercX 0) / ((2:ℤ) : ℝ) * (1/4))
        ((mercY 1 - mercY 0) / ((2:ℤ) : ℝ) * (1/4)) 0 0).y + 1 →
      min (mkTile (mercX 0) (mercY 1)
        ((mercX 1 - mercX 0) / ((2:ℤ) : ℝ)) ((mercY 1 - mercY 0) / ((2:ℤ) : ℝ))
        ((mercX 1 - mercX 0) / ((2:ℤ) : ℝ) * (1/4))
        ((mercY 1 - mercY 0) / ((2:ℤ) : ℝ) * (1/4)) 0 0).bbox_overlap_3857.north
        (mkTile (mercX 0) (mercY 1)
        ((mercX 1 - mercX 0) / ((2:ℤ) : ℝ)) ((mercY 1 - mercY 0) / ((2:ℤ) : ℝ))
        ((mercX 1 - mercX 0) / ((2:ℤ) : ℝ) * (1/4))
        ((mercY 1 - mercY 0) / ((2:ℤ) : ℝ) * (1/4)) 1 0).bbox_overlap_3857.north -
      max (mkTile (mercX 0) (mercY 1)
        ((mercX 1 - mercX 0) / ((2:ℤ) : ℝ)) ((mercY 1 - mercY 0) / ((2:ℤ) : ℝ))
        ((mercX 1 - mercX 0) / ((2:ℤ) : ℝ) * (1/4))
        ((mercY 1 - mercY 0) / ((2:ℤ) : ℝ) * (1/4)) 0 0).bbox_overlap_3857.south
        (mkTile (mercX 0) (mercY 1)
        ((mercX 1 - mercX 0) / ((2:ℤ) : ℝ)) ((mercY 1 - mercY 0) / ((2:ℤ) : ℝ))
        ((mercX 1 - mercX 0) / ((2:ℤ) : ℝ) * (1/4))
        ((mercY 1 - mercY 0) / ((2:ℤ) : ℝ) * (1/4)) 1 0).bbox_overlap_3857.south =
      2 * ((mercY 1 - mercY 0) / ((2:ℤ) : ℝ) * (1/4))) :=
  context_overlap_width_eq_two_mul ⟨0, 0, 1, 1⟩ 2 (1/4) _ _ _
    ⟨by omega, by omega⟩ ⟨by norm_num, by norm_num⟩
    merc_width_pos_01 merc_height_pos_01
    (splitBboxGridWgs84_eq_ok ⟨0, 0, 1, 1⟩ 2 (1/4) ⟨by omega, by omega⟩
      ⟨by norm_num, by norm_num⟩ merc_width_pos_01 merc_height_pos_01)
    (mem_gridTiles.2 ⟨0, 0, by decide, by decide, rfl⟩)
    (mem_gridTiles.2 ⟨1, 0, by decide, by decide, rfl⟩)

/-! ## C2 : the core boxes exactly partition the projected bbox -/

/-- Claim C2. For a successful `splitBboxGridWgs84` run: every tile's core box follows
the row/column formula (`x`-range `[x0+dx·x, x0+dx·(x+1)]`, `y`-range
`[y1-dy·(y+1), y1-dy·y]`, row 0 northernmost); adjacent cores share their edges;
the union of all (closed) core boxes is exactly the projected Web-Mercator bbox;
distinct tiles' open cores are pairwise disjoint (no overlaps); and the column-0
tiles' WGS84 core west edge equals the AOI west edge. -/
theorem grid_cores_partition_bbox
    (bbox : Bbox ℝ) (g : ℤ) (f : ℝ) (ts : List Tile)
    (hg : 1 ≤ g ∧ g ≤ 64) (hf : 0 ≤ f ∧ f < 0.49)
    (hw : 0 < mercX bbox.east - mercX bbox.west)
    (hh : 0 < mercY bbox.north - mercY bbox.south)
    (hok : splitBboxGridWgs84 bbox g f = .ok ts) :
    (∀ t ∈ ts, t.x < g.toNat ∧ t.y < g.toNat ∧
      t.bbox_3857 =
        ⟨mercX bbox.west + (mercX bbox.east - mercX bbox.west) / (g : ℝ) * t.x,
          mercY bbox.north - (mercY bbox.north - mercY bbox.south) / (g : ℝ) * (t.y + 1),
          mercX bbox.west + (mercX bbox.east - mercX bbox.west) / (g : ℝ) * (t.x + 1),
          mercY bbox.north - (mercY bbox.north - mercY bbox.south) / (g : ℝ) * t.y⟩) ∧
    (∀ t1 ∈ ts, ∀ t2 ∈ ts,
      (t1.y = t2.y → t2.x = t1.x + 1 → t1.bbox_3857.east = t2.bbox_3857.west) ∧
      (t1.x = t2.x → t2.y = t1.y + 1 → t1.bbox_3857.south = t2.bbox_3857.north)) ∧
    (⋃ t ∈ ts, Set.Icc t.bbox_3857.west t.bbox_3857.east ×ˢ
        Set.Icc t.bbox_3857.south t.bbox_3857.north) =
      Set.Icc (mercX bbox.west) (mercX bbox.east) ×ˢ
        Set.Icc (mercY bbox.south) (mercY bbox.north) ∧
    (∀ t1 ∈ ts, ∀ t2 ∈ ts, ¬(t1.x = t2.x ∧ t1.y = t2.y) →
      (Set.Ioo t1.bbox_3857.west t1.bbox_3857.east ×ˢ
        Set.Ioo t1.bbox_3857.south t1.bbox_3857.north) ∩
      (Set.Ioo t2.bbox_3857.west t2.bbox_3857.east ×ˢ
        Set.Ioo t2.bbox_3857.south t2.bbox_3857.north) = ∅) ∧
    (∀ t ∈ ts, t.x = 0 → t.bbox.west = bbox.west) := by
  rw [splitBboxGridWgs84_eq_ok bbox g f hg hf hw hh] at hok
  injection hok with hts
  subst hts
  have hgpos : (0 : ℝ) < (g : ℝ) := by exact_mod_cast lt_of_lt_of_le zero_lt_one hg.1
  have hgn : ((g.toNat : ℕ) : ℝ) = (g : ℝ) := toNat_cast_eq hg.1
  have hgn0 : 0 < g.toNat := by omega
  set x0 := mercX bbox.west with hx0
  set x1 := mercX bbox.east with hx1
  set y0 := mercY bbox.south with hy0
  set y1 := mercY bbox.north with hy1
  set dx := (x1 - x0) / (g : ℝ) with hdxdef
  set dy := (y1 - y0) / (g : ℝ) with hdydef
  have hdx : 0 < dx := div_pos hw hgpos
  have hdy : 0 < dy := div_pos hh hgpos
  have hdxg : dx * ((g.toNat : ℕ) : ℝ) = x1 - x0 := by
    rw [hgn, hdxdef]
    field_simp
  have hdyg : dy * ((g.toNat : ℕ) : ℝ) = y1 - y0 := by
    rw [hgn, hdydef]
    field_simp
  refine ⟨?_, ?_, ?_, ?_, ?_⟩
  · -- the core-box formula
    intro t ht
    obtain ⟨a, b, ha, hb, rfl⟩ := mem_gridTiles.1 ht
    exact ⟨ha, hb, by rw [mkTile_x, mkTile_y, mkTile_bbox_3857]⟩
  · -- shared edges
    intro t1 ht1 t2 ht2
    obtain ⟨a1, b1, ha1, hb1, rfl⟩ := mem_gridTiles.1 ht1
    obtain ⟨a2, b2, ha2, hb2, rfl⟩ := mem_gridTiles.1 ht2
    constructor
    · intro _ hx21
      rw [mkTile_x, mkTile_x] at hx21
      subst hx21
      rw [mkTile_core_east, mkTile_core_west]
      push_cast
      ring
    · intro _ hy21
      rw [mkTile_y, mkTile_y] at hy21
      subst hy21
      rw [mkTile_core_south, mkTile_core_north]
      push_cast
      ring
  · -- union equals projected bbox
    ext ⟨px, py⟩
    simp only [Set.mem_iUnion, Set.mem_prod, Set.mem_Icc, exists_prop]
    constructor
    · rintro ⟨t, ht, ⟨hpx1, hpx2⟩, hpy1, hpy2⟩
      obtain ⟨a, b, ha, hb, rfl⟩ := mem_gridTiles.1 ht
      rw [mkTile_core_west] at hpx1
      rw [mkTile_core_east] at hpx2
      rw [mkTile_core_south] at hpy1
      rw [mkTile_core_north] at hpy2
      have haR : (a : ℝ) + 1 ≤ ((g.toNat : ℕ) : ℝ) := by exact_mod_cast ha
      have hbR : (b : ℝ) + 1 ≤ ((g.toNat : ℕ) : ℝ) := by exact_mod_cast hb
      have ha0 : (0 : ℝ) ≤ (a : ℝ) := Nat.cast_nonneg a
      have hb0 : (0 : ℝ) ≤ (b : ℝ) := Nat.cast_nonneg b
      refine ⟨⟨?_, ?_⟩, ?_, ?_⟩
      · nlinarith [mul_nonneg hdx.le ha0]
      · nlinarith [mul_le_mul_of_nonneg_left haR hdx.le]
      · nlinarith [mul_le_mul_of_nonneg_left hbR hdy.le]
      · nlinarith [mul_nonneg hdy.le hb0]
    · rintro ⟨⟨hpx1, hpx2⟩, hpy1, hpy2⟩
      obtain ⟨i, hi, hix1, hix2⟩ :=
        exists_step_interval x0 dx hdx g.toNat hgn0 px hpx1 (by linarith [hdxg])
      obtain ⟨j, hj, hjy1, hjy2⟩ :=
        exists_step_interval 0 dy hdy g.toNat hgn0 (y1 - py) (by linarith)
          (by rw [zero_add]; linarith [hdyg])
      refine ⟨mkTile x0 y1 dx dy (dx * f) (dy * f) i j,
        mem_gridTiles.2 ⟨i, j, hi, hj, rfl⟩, ⟨?_, ?_⟩, ?_, ?_⟩
      · rw [mkTile_core_west]; exact hix1
      · rw [mkTile_core_east]; exact hix2
      · rw [mkTile_core_south]; linarith
      · rw [mkTile_core_north]; linarith
  · -- pairwise disjoint open cores
    intro t1 ht1 t2 ht2 hne
    obtain ⟨a1, b1, ha1, hb1, rfl⟩ := mem_gridTiles.1 ht1
    obtain ⟨a2, b2, ha2, hb2, rfl⟩ := mem_gridTiles.1 ht2
    rw [mkTile_x, mkTile_x, mkTile_y, mkTile_y] at hne
    rw [mkTile_core_west, mkTile_core_west, mkTile_core_east, mkTile_core_east,
      mkTile_core_south, mkTile_core_south, mkTile_core_north, mkTile_core_north,
      Set.prod_inter_prod, Set.prod_eq_empty_iff]
    by_cases hax : a1 = a2
    · right
      have hby : b1 ≠ b2 := fun hb => hne ⟨hax, hb⟩
      exact Ioo_steps_disjoint_desc y1 dy hdy hby
    · left
      exact Ioo_steps_disjoint x0 dx hdx hax
  · -- AOI west edge
    intro t ht hx
    obtain ⟨a, b, ha, hb, rfl⟩ := mem_gridTiles.1 ht
    rw [mkTile_x] at hx
    subst hx
    rw [mkTile_bbox]
    show (x0 + dx * (0 : ℕ)) / Rmerc * 180 / π = bbox.west
    rw [hx0]
    unfold mercX
    have hπ : π ≠ 0 := Real.pi_ne_zero
    have hR : Rmerc ≠ 0 := ne_of_gt Rmerc_pos
    push_cast
    field_simp
    ring

/-- Witness for C2: the `N = 1`, `f = 0` split of the AOI `[0,0,1,1]`. -/
theorem grid_cores_partition_bbox_witness :
    (∀ t ∈ gridTiles (mercX 0) (mercY 1) ((mercX 1 - mercX 0) / ((1:ℤ) : ℝ)) ((mercY 1 - mercY 0) / ((1:ℤ) : ℝ)) ((mercX 1 - mercX 0) / ((1:ℤ) : ℝ) * 0) ((mercY 1 - mercY 0) / ((1:ℤ) : ℝ) * 0) (Int.toNat 1), t.x < Int.toNat 1 ∧ t.y < Int.toNat 1 ∧
      t.bbox_3857 =
        ⟨mercX 0 + (mercX 1 - mercX 0) / ((1:ℤ) : ℝ) * t.x,
          mercY 1 - (mercY 1 - mercY 0) / ((1:ℤ) : ℝ) * (t.y + 1),
          mercX 0 + (mercX 1 - mercX 0) / ((1:ℤ) : ℝ) * (t.x + 1),
          mercY 1 - (mercY 1 - mercY 0) / ((1:ℤ) : ℝ) * t.y⟩) ∧
    (∀ t1 ∈ gridTiles (mercX 0) (mercY 1) ((mercX 1 - mercX 0) / ((1:ℤ) : ℝ)) ((mercY 1 - mercY 0) / ((1:ℤ) : ℝ)) ((mercX 1 - mercX 0) / ((1:ℤ) : ℝ) * 0) ((mercY 1 - mercY 0) / ((1:ℤ) : ℝ) * 0) (Int.toNat 1), ∀ t2 ∈ gridTiles (mercX 0) (mercY 1) ((mercX 1 - mercX 0) / ((1:ℤ) : ℝ)) ((mercY 1 - mercY 0) / ((1:ℤ) : ℝ)) ((mercX 1 - mercX 0) / ((1:ℤ) : ℝ) * 0) ((mercY 1 - mercY 0) / ((1:ℤ) : ℝ) * 0) (Int.toNat 1),
      (t1.y = t2.y → t2.x = t1.x + 1 → t1.bbox_3857.east = t2.bbox_3857.west) ∧
      (t1.x = t2.x → t2.y = t1.y + 1 → t1.bbox_3857.south = t2.bbox_3857.north)) ∧
    (⋃ t ∈ gridTiles (mercX 0) (mercY 1) ((mercX 1 - mercX 0) / ((1:ℤ) : ℝ)) ((mercY 1 - mercY 0) / ((1:ℤ) : ℝ)) ((mercX 1 - mercX 0) / ((1:ℤ) : ℝ) * 0) ((mercY 1 - mercY 0) / ((1:ℤ) : ℝ) * 0) (Int.toNat 1), Set.Icc t.bbox_3857.west t.bbox_3857.east ×ˢ
        Set.Icc t.bbox_3857.south t.bbox_3857.north) =
      Set.Icc (mercX 0) (mercX 1) ×ˢ Set.Icc (mercY 0) (mercY 1) ∧
    (∀ t1 ∈ gridTiles (mercX 0) (mercY 1) ((mercX 1 - mercX 0) / ((1:ℤ) : ℝ)) ((mercY 1 - mercY 0) / ((1:ℤ) : ℝ)) ((mercX 1 - mercX 0) / ((1:ℤ) : ℝ) * 0) ((mercY 1 - mercY 0) / ((1:ℤ) : ℝ) * 0) (Int.toNat 1), ∀ t2 ∈ gridTiles (mercX 0) (mercY 1) ((mercX 1 - mercX 0) / ((1:ℤ) : ℝ)) ((mercY 1 - mercY 0) / ((1:ℤ) : ℝ)) ((mercX 1 - mercX 0) / ((1:ℤ) : ℝ) * 0) ((mercY 1 - mercY 0) / ((1:ℤ) : ℝ) * 0) (Int.toNat 1), ¬(t1.x = t2.x ∧ t1.y = t2.y) →
      (Set.Ioo t1.bbox_3857.west t1.bbox_3857.east ×ˢ
        Set.Ioo t1.bbox_3857.south t1.bbox_3857.north) ∩
      (Set.Ioo t2.bbox_3857.west t2.bbox_3857.east ×ˢ
        Set.Ioo t2.bbox_3857.south t2.bbox_3857.north) = ∅) ∧
    (∀ t ∈ gridTiles (mercX 0) (mercY 1) ((mercX 1 - mercX 0) / ((1:ℤ) : ℝ)) ((mercY 1 - mercY 0) / ((1:ℤ) : ℝ)) ((mercX 1 - mercX 0) / ((1:ℤ) : ℝ) * 0) ((mercY 1 - mercY 0) / ((1:ℤ) : ℝ) * 0) (Int.toNat 1), t.x = 0 → t.bbox.west = 0) :=
  grid_cores_partition_bbox ⟨0, 0, 1, 1⟩ 1 0 _ ⟨by omega, by omega⟩
    ⟨by norm_num, by norm_num⟩ merc_width_pos_01 merc_height_pos_01
    (splitBboxGridWgs84_eq_ok ⟨0, 0, 1, 1⟩ 1 0 ⟨by omega, by omega⟩
      ⟨by norm_num, by norm_num⟩ merc_width_pos_01 merc_height_pos_01)
